import Mathlib

/-!
Verification of the terra token contract (tarunjais28/terra-token-contract).

Shallow embedding of the contract's operations:
* machine integers are `Nat` with explicit `2 ^ 128` bounds: `Uint128`'s
  unchecked `+`/`-` panic on overflow (modelled by the `overflowPanic`
  error), while `checked_add`/`checked_sub` return a `StdError` overflow;
* persistent storage maps become Lean functions to `Option`;
* every fallible entry point returns `Except Err`.

The cw20-base fork the contract delegates to (`execute_transfer`,
`execute_mint`, ..., `BALANCES`, `FROZEN_BALANCES`, `BALANCE_CAP`) and the
error enumeration live outside this repository's `src/`; those parts are
modelled from the specification and are marked as such in doc comments.
-/

namespace TokenContract

abbrev Addr := String

/-- `2 ^ 128`, the bound of `Uint128`. -/
def U128 : Nat := 2 ^ 128

/-- Modelled from the spec: the contract error enumeration (the repository
declares `mod error` but `error.rs` is not under `src/`); `notFound` is the
`StdError` returned by a non-optional `Map::load` on an absent key,
`overflow` the `StdError` of a failed checked add/sub, `overflowPanic` a
Rust panic from `Uint128`'s unchecked `+`/`-`, and `generic` a
`StdError::generic_err`. -/
inductive Err where
  | balanceFrozen
  | cannotExceedCap
  | missingResourceMapping
  | notFound
  | overflow
  | overflowPanic
  | invalidZeroAmount
  | unauthorized
  | generic (msg : String)
deriving DecidableEq, Repr

/-- `Uint128 + Uint128` (unchecked): panics on overflow. -/
def add128 (a b : Nat) : Except Err Nat :=
  if a + b < U128 then .ok (a + b) else .error .overflowPanic

/-- `Uint128 - Uint128` (unchecked): panics on underflow. -/
def sub128 (a b : Nat) : Except Err Nat :=
  if b ≤ a then .ok (a - b) else .error .overflowPanic

/-- `Uint128::checked_add`: `StdError` overflow on overflow. -/
def checkedAdd (a b : Nat) : Except Err Nat :=
  if a + b < U128 then .ok (a + b) else .error .overflow

/-- `Uint128::checked_sub`: `StdError` overflow on underflow. -/
def checkedSub (a b : Nat) : Except Err Nat :=
  if b ≤ a then .ok (a - b) else .error .overflow

/-- `Map::load` (non-optional): `StdError::NotFound` when the key is absent. -/
def load {α : Type} : Option α → Except Err α
  | some v => .ok v
  | none => .error .notFound

/-- Point update of a stored map (`Map::save`). -/
def mupd (m : Addr → Option Nat) (k : Addr) (v : Nat) : Addr → Option Nat :=
  fun x => if x = k then some v else m x

/-- Point removal from a stored map (`Map::remove`). -/
def mdel (m : Addr → Option Nat) (k : Addr) : Addr → Option Nat :=
  fun x => if x = k then none else m x

/-- Point update of the allowance map. -/
def aupd (m : Addr → Addr → Option Nat) (o s : Addr) (v : Nat) :
    Addr → Addr → Option Nat :=
  fun x y => if x = o ∧ y = s then some v else m x y

/-- The persistent state of the token contract: `BALANCES`,
`FROZEN_BALANCES`, `BALANCE_CAP`, the `TOKEN_INFO` total supply and minter
data, and the cw20 allowance map. -/
structure St where
  balances : Addr → Option Nat
  frozen : Addr → Option Nat
  balCap : Option Nat
  totalSupply : Nat
  minter : Option (Addr × Option Nat)
  allowances : Addr → Addr → Option Nat

/-- The empty storage an `instantiate` call starts from. -/
def emptySt : St :=
  { balances := fun _ => none
    frozen := fun _ => none
    balCap := none
    totalSupply := 0
    minter := none
    allowances := fun _ _ => none }

/-! ## Base ledger (external collaborator, not under `src/`) -/

/-- Modelled from the spec: the base ledger's `transfer` primitive
(cw20-base `execute_transfer`): rejects a zero amount, debits the sender by
checked subtraction, then credits the recipient. -/
def execute_transfer (st : St) (sender rcpt : Addr) (amount : Nat) :
    Except Err St :=
  if amount = 0 then .error .invalidZeroAmount
  else do
    let sb' ← checkedSub ((st.balances sender).getD 0) amount
    let st1 : St := { st with balances := mupd st.balances sender sb' }
    let rb' ← add128 ((st1.balances rcpt).getD 0) amount
    .ok { st1 with balances := mupd st1.balances rcpt rb' }

/-- Modelled from the spec: the base ledger's `send` primitive (cw20-base
`execute_send`): the same balance movement as `transfer` plus a submessage
to the receiving contract (the message is outside the embedded state). -/
def execute_send (st : St) (sender contract : Addr) (amount : Nat) :
    Except Err St :=
  if amount = 0 then .error .invalidZeroAmount
  else do
    let sb' ← checkedSub ((st.balances sender).getD 0) amount
    let st1 : St := { st with balances := mupd st.balances sender sb' }
    let rb' ← add128 ((st1.balances contract).getD 0) amount
    .ok { st1 with balances := mupd st1.balances contract rb' }

/-- Modelled from the spec: the base ledger's `burn` primitive (cw20-base
`execute_burn`): rejects a zero amount, debits the sender and the total
supply by checked subtraction. -/
def execute_burn (st : St) (sender : Addr) (amount : Nat) : Except Err St :=
  if amount = 0 then .error .invalidZeroAmount
  else do
    let sb' ← checkedSub ((st.balances sender).getD 0) amount
    let ts' ← checkedSub st.totalSupply amount
    .ok { st with balances := mupd st.balances sender sb', totalSupply := ts' }

/-- Whether a configured mint cap is exceeded by the new total supply. -/
def capExceeded : Option Nat → Nat → Bool
  | some limit, ts => decide (limit < ts)
  | none, _ => false

/-- Modelled from the spec: the base ledger's `mint` primitive (cw20-base
`execute_mint`): rejects a zero amount, only the configured minter may
mint, the new total supply must not exceed the mint cap
(`CannotExceedCap`), then the recipient is credited. -/
def execute_mint (st : St) (sender rcpt : Addr) (amount : Nat) :
    Except Err St :=
  if amount = 0 then .error .invalidZeroAmount
  else
    match st.minter with
    | none => .error .unauthorized
    | some (m, cap) =>
      if sender = m then do
        let ts' ← add128 st.totalSupply amount
        if capExceeded cap ts' then .error .cannotExceedCap
        else do
          let rb' ← add128 ((st.balances rcpt).getD 0) amount
          .ok { st with balances := mupd st.balances rcpt rb', totalSupply := ts' }
      else .error .unauthorized

/-- Modelled from the spec: the base ledger's allowance deduction: a missing
allowance is a generic error, an expended one an arithmetic error. -/
def deduct_allowance (st : St) (owner spender : Addr) (amount : Nat) :
    Except Err St :=
  match st.allowances owner spender with
  | none => .error (.generic "No allowance for this account")
  | some a =>
    if amount ≤ a then
      .ok { st with allowances := aupd st.allowances owner spender (a - amount) }
    else .error .overflow

/-- Modelled from the spec: the base ledger's `transfer_from`: deduct the
spender's allowance, then move the owner's balance to the recipient. -/
def execute_transfer_from (st : St) (spender owner rcpt : Addr) (amount : Nat) :
    Except Err St := do
  let st1 ← deduct_allowance st owner spender amount
  let ob' ← checkedSub ((st1.balances owner).getD 0) amount
  let st2 : St := { st1 with balances := mupd st1.balances owner ob' }
  let rb' ← add128 ((st2.balances rcpt).getD 0) amount
  .ok { st2 with balances := mupd st2.balances rcpt rb' }

/-- Modelled from the spec: the base ledger's `burn_from`: deduct the
spender's allowance, then burn from the owner's balance and total supply. -/
def execute_burn_from (st : St) (spender owner : Addr) (amount : Nat) :
    Except Err St := do
  let st1 ← deduct_allowance st owner spender amount
  let ob' ← checkedSub ((st1.balances owner).getD 0) amount
  let ts' ← checkedSub st1.totalSupply amount
  .ok { st1 with balances := mupd st1.balances owner ob', totalSupply := ts' }

/-- Modelled from the spec: the base ledger's `send_from`: the balance
movement of `transfer_from` plus a submessage to the receiving contract. -/
def execute_send_from (st : St) (spender owner contract : Addr) (amount : Nat) :
    Except Err St := do
  let st1 ← deduct_allowance st owner spender amount
  let ob' ← checkedSub ((st1.balances owner).getD 0) amount
  let st2 : St := { st1 with balances := mupd st1.balances owner ob' }
  let rb' ← add128 ((st2.balances contract).getD 0) amount
  .ok { st2 with balances := mupd st2.balances contract rb' }

/-- Modelled from the spec: cw20-base `execute_increase_allowance`. -/
def execute_increase_allowance (st : St) (sender spender : Addr) (amount : Nat) :
    Except Err St :=
  if spender = sender then .error (.generic "Cannot set to own account")
  else do
    let a' ← add128 ((st.allowances sender spender).getD 0) amount
    .ok { st with allowances := aupd st.allowances sender spender a' }

/-- Modelled from the spec: cw20-base `execute_decrease_allowance`. -/
def execute_decrease_allowance (st : St) (sender spender : Addr) (amount : Nat) :
    Except Err St :=
  if spender = sender then .error (.generic "Cannot set to own account")
  else do
    let a' ← checkedSub ((st.allowances sender spender).getD 0) amount
    .ok { st with allowances := aupd st.allowances sender spender a' }

/-! ## Guarded wrappers (`src/contract.rs`) -/

/-- `transfer` (contract.rs 176-203): non-optional load of the sender's
balance, frozen balance defaulting to zero, unchecked `Uint128`
subtraction, `BalanceFrozen` guard, then the recipient-side balance-cap
guard (recipient balance defaulting to zero), then delegation. -/
def transfer (st : St) (sender rcpt : Addr) (amount : Nat) : Except Err St := do
  let balance ← load (st.balances sender)
  let frozen_balance := (st.frozen sender).getD 0
  let spendable ← sub128 balance frozen_balance
  if spendable < amount then .error .balanceFrozen
  else do
    let token_bal := (st.balances rcpt).getD 0
    let bal_cap ← load st.balCap
    let post ← add128 token_bal amount
    if bal_cap < post then .error .cannotExceedCap
    else execute_transfer st sender rcpt amount

/-- `send` (contract.rs 205-223): the frozen-balance guard only, then
delegation — no cap check on the receiving contract. -/
def send (st : St) (sender contract : Addr) (amount : Nat) : Except Err St := do
  let balance ← load (st.balances sender)
  let frozen_balance := (st.frozen sender).getD 0
  let spendable ← sub128 balance frozen_balance
  if spendable < amount then .error .balanceFrozen
  else execute_send st sender contract amount

/-- `burn` (contract.rs 225-241): the frozen-balance guard, then delegation. -/
def burn (st : St) (sender : Addr) (amount : Nat) : Except Err St := do
  let balance ← load (st.balances sender)
  let frozen_balance := (st.frozen sender).getD 0
  let spendable ← sub128 balance frozen_balance
  if spendable < amount then .error .balanceFrozen
  else execute_burn st sender amount

/-- `mint` (contract.rs 158-174): non-optional load of the recipient's
balance, then the balance-cap guard, then delegation. -/
def mint (st : St) (sender rcpt : Addr) (amount : Nat) : Except Err St := do
  let token_bal ← load (st.balances rcpt)
  let bal_cap ← load st.balCap
  let post ← add128 token_bal amount
  if bal_cap < post then .error .cannotExceedCap
  else execute_mint st sender rcpt amount

/-- `transfer_from` (contract.rs 243-273): the frozen-balance guard on the
caller (not the owner), the recipient-side cap guard, then delegation. -/
def transfer_from (st : St) (sender owner rcpt : Addr) (amount : Nat) :
    Except Err St := do
  let balance ← load (st.balances sender)
  let frozen_balance := (st.frozen sender).getD 0
  let spendable ← sub128 balance frozen_balance
  if spendable < amount then .error .balanceFrozen
  else do
    let token_bal := (st.balances rcpt).getD 0
    let bal_cap ← load st.balCap
    let post ← add128 token_bal amount
    if bal_cap < post then .error .cannotExceedCap
    else execute_transfer_from st sender owner rcpt amount

/-- `burn_from` (contract.rs 275-292): the frozen-balance guard on the
caller, then delegation. -/
def burn_from (st : St) (sender owner : Addr) (amount : Nat) : Except Err St := do
  let balance ← load (st.balances sender)
  let frozen_balance := (st.frozen sender).getD 0
  let spendable ← sub128 balance frozen_balance
  if spendable < amount then .error .balanceFrozen
  else execute_burn_from st sender owner amount

/-- `send_from` (contract.rs 294-315): the frozen-balance guard on the
caller, then delegation — no cap check on the receiving contract. -/
def send_from (st : St) (sender owner contract : Addr) (amount : Nat) :
    Except Err St := do
  let balance ← load (st.balances sender)
  let frozen_balance := (st.frozen sender).getD 0
  let spendable ← sub128 balance frozen_balance
  if spendable < amount then .error .balanceFrozen
  else execute_send_from st sender owner contract amount

/-- `UpdateType` (`msg.rs`): the three frozen-list mutations. -/
inductive UpdateType where
  | add (address : Addr) (amount : Nat)
  | sub (address : Addr) (amount : Nat)
  | discard (address : Addr)

/-- `update_frozen_list` (contract.rs 317-347): `Add` checked-adds onto the
existing frozen amount (zero when absent), `Sub` checked-subtracts,
`Discard` removes the entry unconditionally. -/
def update_frozen_list (ut : UpdateType) (st : St) : Except Err St :=
  match ut with
  | .add a amt => do
    let v ← checkedAdd ((st.frozen a).getD 0) amt
    .ok { st with frozen := mupd st.frozen a v }
  | .sub a amt => do
    let v ← checkedSub ((st.frozen a).getD 0) amt
    .ok { st with frozen := mupd st.frozen a v }
  | .discard a => .ok { st with frozen := mdel st.frozen a }

/-! ## Instantiation (`src/contract.rs`, message data from `src/msg.rs`) -/

/-- `Cw20Coin`: an address together with an amount. -/
structure Cw20Coin where
  address : Addr
  amount : Nat

/-- `MinterData` / `MinterResponse`: the minter and its optional mint cap. -/
structure MinterData where
  minter : Addr
  cap : Option Nat

/-- The `Instantiate` message as consumed by `contract.rs`: token metadata,
initial balances, initial frozen balances, the per-account balance cap and
the optional minter data. `name` and `symbol` are carried as their UTF-8
bytes, which is what the validation in `msg.rs` inspects. -/
structure InstantiateMsg where
  name : List Nat
  symbol : List Nat
  decimals : Nat
  initial_balances : List Cw20Coin
  frozen_balances : List Cw20Coin
  bal_cap : Nat
  mint : Option MinterData

/-- `Instantiate::get_cap` (msg.rs 23-25): the mint cap, when configured. -/
def get_cap (msg : InstantiateMsg) : Option Nat :=
  msg.mint.bind (fun m => m.cap)

/-- `is_valid_name` (msg.rs 46-52): 3 to 50 bytes. -/
def is_valid_name (name : List Nat) : Bool :=
  decide (3 ≤ name.length) && decide (name.length ≤ 50)

/-- `is_valid_symbol` (msg.rs 54-65): 3 to 12 bytes, each byte a dash or an
ASCII letter. -/
def is_valid_symbol (symbol : List Nat) : Bool :=
  decide (3 ≤ symbol.length) && decide (symbol.length ≤ 12) &&
    symbol.all (fun b =>
      decide (b = 45) || (decide (65 ≤ b) && decide (b ≤ 90)) ||
        (decide (97 ≤ b) && decide (b ≤ 122)))

/-- `Instantiate::validate` (msg.rs 27-43). -/
def validate (msg : InstantiateMsg) : Except Err Unit :=
  if !is_valid_name msg.name then
    .error (.generic "Name is not in the expected format (3-50 UTF-8 bytes)")
  else if !is_valid_symbol msg.symbol then
    .error (.generic "Ticker symbol is not in expected format [a-zA-Z\\-]{3,12}")
  else if msg.decimals > 18 then
    .error (.generic "Decimals must not exceed 18")
  else .ok ()

/-- The first loop of `create_accounts` (contract.rs 83-87): each initial
balance is saved before the running total is bumped with `Uint128`'s
unchecked `+=`, so a mid-loop overflow panic leaves the balances saved so
far in contract-level storage. -/
def saveInitialBalances : St → List Cw20Coin → Nat → St × Except Err Nat
  | st, [], total => (st, .ok total)
  | st, c :: rest, total =>
    let st' : St := { st with balances := mupd st.balances c.address c.amount }
    match add128 total c.amount with
    | .ok t => saveInitialBalances st' rest t
    | .error e => (st', .error e)

/-- The second loop of `create_accounts` (contract.rs 89-92). -/
def saveFrozenBalances (st : St) (l : List Cw20Coin) : St :=
  l.foldl (fun s c => { s with frozen := mupd s.frozen c.address c.amount }) st

/-- `create_accounts` (contract.rs 81-97): saves all initial balances
(summing the total supply), all frozen balances, and the balance cap. -/
def create_accounts (st : St) (msg : InstantiateMsg) : St × Except Err Nat :=
  match saveInitialBalances st msg.initial_balances 0 with
  | (st1, .ok total) =>
    let st2 := saveFrozenBalances st1 msg.frozen_balances
    (⟨st2.balances, st2.frozen, some msg.bal_cap, st2.totalSupply, st2.minter,
      st2.allowances⟩, .ok total)
  | (st1, .error e) => (st1, .error e)

/-- `instantiate` (contract.rs 31-79) at the contract level: the returned
state is the storage as the contract itself left it, including writes made
before a later error (the hosting runtime's rollback is a separate,
spec-modelled layer, `persistInstantiate`). -/
def instantiateRaw (st : St) (msg : InstantiateMsg) : St × Option Err :=
  match validate msg with
  | .error e => (st, some e)
  | .ok _ =>
    if msg.initial_balances.any (fun b => decide (msg.bal_cap < b.amount)) then
      (st, some .cannotExceedCap)
    else
      match create_accounts st msg with
      | (st1, .error e) => (st1, some e)
      | (st1, .ok total) =>
        match get_cap msg with
        | some limit =>
          if total > limit then
            (st1, some (.generic "Initial supply greater than cap"))
          else
            ({ st1 with
                totalSupply := total
                minter := msg.mint.map (fun m => (m.minter, m.cap)) }, none)
        | none =>
          ({ st1 with
              totalSupply := total
              minter := msg.mint.map (fun m => (m.minter, m.cap)) }, none)

/-- `instantiate` as seen by the caller: its result value. -/
def instantiate (st : St) (msg : InstantiateMsg) : Except Err St :=
  match instantiateRaw st msg with
  | (st1, none) => .ok st1
  | (_, some e) => .error e

/-- Modelled from the spec: the hosting runtime's transactional commit for
`instantiate` — on an error return, no write of the invocation is
persisted, so the persisted state is the state from before the call. -/
def persistInstantiate (st : St) (msg : InstantiateMsg) : St :=
  match instantiateRaw st msg with
  | (st1, none) => st1
  | (_, some _) => st

/-- The `Execute` message variants dispatched by `execute`
(contract.rs 100-156); the marketing/logo metadata variants are outside the
spec's core scope and are not embedded. -/
inductive Execute where
  | mintMsg (recipient : Addr) (amount : Nat)
  | transferMsg (recipient : Addr) (amount : Nat)
  | sendMsg (contract : Addr) (amount : Nat)
  | burnMsg (amount : Nat)
  | increaseAllowanceMsg (spender : Addr) (amount : Nat)
  | decreaseAllowanceMsg (spender : Addr) (amount : Nat)
  | transferFromMsg (owner recipient : Addr) (amount : Nat)
  | burnFromMsg (owner : Addr) (amount : Nat)
  | sendFromMsg (owner contract : Addr) (amount : Nat)
  | updateFrozenListMsg (ut : UpdateType)

/-- `execute` (contract.rs 100-156): dispatch on the message variant, with
`info.sender` the caller. -/
def execute (st : St) (sender : Addr) (msg : Execute) : Except Err St :=
  match msg with
  | .mintMsg r a => mint st sender r a
  | .transferMsg r a => transfer st sender r a
  | .sendMsg c a => send st sender c a
  | .burnMsg a => burn st sender a
  | .increaseAllowanceMsg s a => execute_increase_allowance st sender s a
  | .decreaseAllowanceMsg s a => execute_decrease_allowance st sender s a
  | .transferFromMsg o r a => transfer_from st sender o r a
  | .burnFromMsg o a => burn_from st sender o a
  | .sendFromMsg o c a => send_from st sender o c a
  | .updateFrozenListMsg ut => update_frozen_list ut st

/-- Modelled from the spec: the hosting runtime's transactional commit for
`execute` — a failed call persists nothing. -/
def executeHost (st : St) (sender : Addr) (msg : Execute) : St :=
  match execute st sender msg with
  | .ok st1 => st1
  | .error _ => st

/-! ## Resource registry (`src/lib.rs`, `src/state.rs`)

Both `Map`s in `state.rs` are created with the same namespace string
`"resource_id_to_token_contract_address"`, so they share one key space;
the raw storage is modelled as a single map from key strings to stored
JSON values. A stored `String` and a stored `Uint64` both serialize to a
JSON string (a `Uint64` to its decimal digits), which the two load
functions mirror. -/

/-- A stored JSON value of the shared registry namespace: either a `String`
or a `Uint64`. -/
inductive SVal where
  | str (s : String)
  | u64 (n : Nat)
deriving DecidableEq, Repr

/-- The raw shared key space of the two registry maps. -/
abbrev Store := String → Option SVal

/-- `Map::save` on the shared namespace. -/
def storeSave (m : Store) (k : String) (v : SVal) : Store :=
  fun x => if x = k then some v else m x

/-- Loading a key as a `String` (the forward map's value type); a stored
`Uint64 n` deserializes as the decimal string of `n`, since that is its
JSON serialization. -/
def loadStr : Option SVal → Option String
  | some (.str s) => some s
  | some (.u64 n) => some (toString n)
  | none => none

/-- Loading a key as a `Uint64` (the reverse map's value type); a stored
string deserializes as a `Uint64` exactly when it is a decimal numeral. -/
def loadU64 : Option SVal → Option Nat
  | some (.u64 n) => some n
  | some (.str s) => s.toNat?
  | none => none

/-- `set_resource_id` (lib.rs 37-53): saves the forward entry
`toString resource_id ↦ address`, then the reverse entry
`address ↦ resource_id`, both into the shared key space. -/
def set_resource_id (store : Store) (resource_id : Nat) (address : String) :
    Store :=
  storeSave (storeSave store (toString resource_id) (.str address)) address
    (.u64 resource_id)

/-- Modelled from the spec: the bridge flows resolve a resource id through
the forward map, failing with `MissingResourceMapping` when it is absent
(the bridge handlers themselves are not under `src/`). -/
def resolve (store : Store) (resource_id : Nat) : Except Err String :=
  match loadStr (store (toString resource_id)) with
  | some a => .ok a
  | none => .error .missingResourceMapping

/-! ## Payload codec (`src/data.rs`)

`ProposalData` and `WithdrawData` derive parity-scale-codec's
`Encode`/`Decode`: fields are laid out in declaration order, a `u128` as 16
little-endian bytes, a string as its byte length in the SCALE compact
encoding followed by its UTF-8 bytes, with no padding. Strings are carried
as their byte lists. -/

/-- The `k`-byte little-endian encoding of `n`. -/
def natToLE : Nat → Nat → List Nat
  | 0, _ => []
  | k + 1, n => n % 256 :: natToLE k (n / 256)

/-- The value of a little-endian byte list. -/
def leToNat : List Nat → Nat
  | [] => 0
  | b :: bs => b + 256 * leToNat bs

/-- The SCALE compact encoding of `n` (defined for `n < 2 ^ 32`, the range
of the compact `u32` length prefix the derive uses for strings). -/
def compactEnc (n : Nat) : List Nat :=
  if n < 64 then [4 * n]
  else if n < 16384 then natToLE 2 (4 * n + 1)
  else if n < 1073741824 then natToLE 4 (4 * n + 2)
  else 3 :: natToLE 4 n

/-- The SCALE compact decoder: the low two bits of the first byte select
single-byte, two-byte, four-byte or big-integer mode. -/
def compactDec : List Nat → Option (Nat × List Nat)
  | [] => none
  | b :: rest =>
    match b % 4 with
    | 0 => some (b / 4, rest)
    | 1 =>
      match rest with
      | b1 :: r => some ((b + 256 * b1) / 4, r)
      | [] => none
    | 2 =>
      match rest with
      | b1 :: b2 :: b3 :: r =>
        some ((b + 256 * b1 + 65536 * b2 + 16777216 * b3) / 4, r)
      | _ => none
    | _ =>
      let m := b / 4 + 4
      if m ≤ rest.length then some (leToNat (rest.take m), rest.drop m)
      else none

/-- SCALE encoding of a byte string: compact length, then the bytes. -/
def encBytes (s : List Nat) : List Nat := compactEnc s.length ++ s

/-- SCALE decoding of a byte string. -/
def decBytes (l : List Nat) : Option (List Nat × List Nat) := do
  let (len, r) ← compactDec l
  if len ≤ r.length then some (r.take len, r.drop len) else none

/-- SCALE encoding of a `u128`: 16 little-endian bytes. -/
def encU128 (n : Nat) : List Nat := natToLE 16 n

/-- SCALE decoding of a `u128`. -/
def decU128 (l : List Nat) : Option (Nat × List Nat) :=
  if 16 ≤ l.length then some (leToNat (l.take 16), l.drop 16) else none

/-- `ProposalData` (data.rs 4-8): amount, then recipient address. -/
structure ProposalData where
  amount : Nat
  recipient_address : List Nat
deriving DecidableEq, Repr

/-- `WithdrawData` (data.rs 10-15): token address, then recipient address,
then amount. -/
structure WithdrawData where
  token_address : List Nat
  recipient_address : List Nat
  amount : Nat
deriving DecidableEq, Repr

/-- The derived `Encode` for `ProposalData`: fields in declaration order. -/
def encodeProposal (p : ProposalData) : List Nat :=
  encU128 p.amount ++ encBytes p.recipient_address

/-- The derived `Decode` for `ProposalData`. -/
def decodeProposal (l : List Nat) : Option (ProposalData × List Nat) := do
  let (amt, r1) ← decU128 l
  let (addr, r2) ← decBytes r1
  some ({ amount := amt, recipient_address := addr }, r2)

/-- The derived `Encode` for `WithdrawData`: fields in declaration order. -/
def encodeWithdraw (w : WithdrawData) : List Nat :=
  encBytes w.token_address ++ (encBytes w.recipient_address ++ encU128 w.amount)

/-- The derived `Decode` for `WithdrawData`. -/
def decodeWithdraw (l : List Nat) : Option (WithdrawData × List Nat) := do
  let (tok, r1) ← decBytes l
  let (rcpt, r2) ← decBytes r1
  let (amt, r3) ← decU128 r2
  some ({ token_address := tok, recipient_address := rcpt, amount := amt }, r3)

/-! ## Claim theorems -/

/-- Bind of an ok result. -/
theorem ok_bind {α β : Type} (v : α) (f : α → Except Err β) :
    Except.bind (Except.ok v) f = f v := rfl

/-- Bind of an error short-circuits. -/
theorem error_bind {α β : Type} (e : Err) (f : α → Except Err β) :
    Except.bind (Except.error e) f = Except.error e := rfl

/-- Bind commutes with an if on its first argument; used to float the
condition of a checked operation out of a monadic sequence. -/
theorem bind_ite {α β : Type} (c : Prop) [Decidable c] (x y : Except Err α)
    (f : α → Except Err β) :
    Except.bind (if c then x else y) f =
      if c then Except.bind x f else Except.bind y f := by
  split <;> rfl

/-- State for the C1 counterexample: the sender holds 5 with 10 frozen, so
frozen exceeds the balance. -/
def c1St : St :=
  { balances := fun a => if a = "s" then some 5 else none
    frozen := fun a => if a = "s" then some 10 else none
    balCap := some 1000
    totalSupply := 5
    minter := none
    allowances := fun _ _ => none }

/-- C1 counterexample: with balance 5 and frozen 10 — a state with
frozen[sender] ≥ balance[sender] — a transfer of amount 1 does not fail
with BalanceFrozen: the unsigned subtraction balance − frozen is the plain
`Uint128` subtraction, which panics, so the claim's "saturating or checked
subtraction ... rejected rather than panicking" is false on the code. -/
theorem C1_counterexample :
    transfer c1St "s" "r" 1 = .error .overflowPanic ∧
      Err.overflowPanic ≠ Err.balanceFrozen :=
  ⟨rfl, by decide⟩

/-- C1 (amended): when frozen[sender] = balance[sender] (in particular when
both are zero or the frozen entry is absent with a zero balance), every
Transfer, Send, Burn, TransferFrom, BurnFrom and SendFrom with amount > 0
initiated by the sender fails with BalanceFrozen; when frozen[sender] >
balance[sender] the unchecked unsigned subtraction balance − frozen
underflows and the call aborts with an overflow panic instead. -/
theorem C1_frozen_guard (st : St) (sender rcpt owner contract : Addr)
    (amount b f : Nat)
    (hb : st.balances sender = some b)
    (hf : (st.frozen sender).getD 0 = f)
    (hamt : 0 < amount) :
    (f = b →
      transfer st sender rcpt amount = .error .balanceFrozen ∧
      send st sender contract amount = .error .balanceFrozen ∧
      burn st sender amount = .error .balanceFrozen ∧
      transfer_from st sender owner rcpt amount = .error .balanceFrozen ∧
      burn_from st sender owner amount = .error .balanceFrozen ∧
      send_from st sender owner contract amount = .error .balanceFrozen) ∧
    (b < f →
      transfer st sender rcpt amount = .error .overflowPanic ∧
      send st sender contract amount = .error .overflowPanic ∧
      burn st sender amount = .error .overflowPanic ∧
      transfer_from st sender owner rcpt amount = .error .overflowPanic ∧
      burn_from st sender owner amount = .error .overflowPanic ∧
      send_from st sender owner contract amount = .error .overflowPanic) := by
  constructor
  · rintro rfl
    refine ⟨?_, ?_, ?_, ?_, ?_, ?_⟩ <;>
      simp [transfer, send, burn, transfer_from, burn_from, send_from,
        load, hb, hf, sub128, bind, Except.bind, hamt]
  · intro hlt
    have hnle : ¬ f ≤ b := by omega
    refine ⟨?_, ?_, ?_, ?_, ?_, ?_⟩ <;>
      simp [transfer, send, burn, transfer_from, burn_from, send_from,
        load, hb, hf, sub128, bind, Except.bind, hnle]

/-- State for the C1 witness: the sender holds 7 with exactly 7 frozen. -/
def w1St : St :=
  { balances := fun a => if a = "s" then some 7 else none
    frozen := fun a => if a = "s" then some 7 else none
    balCap := some 1000
    totalSupply := 7
    minter := none
    allowances := fun _ _ => none }

/-- C1 witness: a fully frozen balance rejects a transfer of 3 with
BalanceFrozen. -/
theorem C1_frozen_guard_witness :
    transfer w1St "s" "r" 3 = .error .balanceFrozen := by
  have h := C1_frozen_guard w1St "s" "r" "o" "c" 3 7 7 rfl rfl (by decide)
  exact (h.1 rfl).1

/-- C10: every frozen-guard-wrapped operation loads the caller's balance
with a non-optional load, so a caller with no balance entry gets a storage
not-found error — not BalanceFrozen — for every amount, including zero. -/
theorem C10_missing_sender_balance (st : St) (sender rcpt owner contract : Addr)
    (amount : Nat) (hb : st.balances sender = none) :
    transfer st sender rcpt amount = .error .notFound ∧
    send st sender contract amount = .error .notFound ∧
    burn st sender amount = .error .notFound ∧
    transfer_from st sender owner rcpt amount = .error .notFound ∧
    burn_from st sender owner amount = .error .notFound ∧
    send_from st sender owner contract amount = .error .notFound ∧
    Err.notFound ≠ Err.balanceFrozen := by
  refine ⟨?_, ?_, ?_, ?_, ?_, ?_, by decide⟩ <;>
    simp [transfer, send, burn, transfer_from, burn_from, send_from,
      load, hb, bind, Except.bind]

/-- C10 witness: on empty storage a transfer of amount 0 fails with the
not-found error. -/
theorem C10_missing_sender_balance_witness :
    transfer emptySt "s" "r" 0 = .error .notFound := by
  have h := C10_missing_sender_balance emptySt "s" "r" "o" "c" 0 rfl
  exact h.1

/-- State for C3, mirroring the repository's `can_mint_by_minter` test:
genesis holds 11223344, the minter is "asmodat" with mint cap 511223344,
and the balance cap is stored; "lucky" has no balance entry. -/
def c3St : St :=
  { balances := fun a => if a = "genesis" then some 11223344 else none
    frozen := fun _ => none
    balCap := some 511223344
    totalSupply := 11223344
    minter := some ("asmodat", some 511223344)
    allowances := fun _ _ => none }

/-- C3: the mint guard loads the recipient balance with a non-optional
load, so the mint of the repository's own `can_mint_by_minter` test — the
minter minting 222222222 to the fresh account "lucky" — fails with a
storage not-found error instead of succeeding: the code contradicts its
own test, which asserts this mint succeeds and credits the prize. -/
theorem C3_mint_fresh_recipient_not_found :
    mint c3St "asmodat" "lucky" 222222222 = .error .notFound ∧
      Err.notFound ≠ Err.cannotExceedCap :=
  ⟨rfl, by decide⟩

/-- C7: update_frozen_list. Add replaces the frozen entry by checked
addition onto the existing amount (zero when absent) and fails with an
arithmetic overflow error past 2^128; Sub checked-subtracts and fails with
an arithmetic error — not BalanceFrozen — when the amount exceeds the
current frozen amount; Discard removes the entry unconditionally; no
variant touches any other account's frozen entry or any balance. -/
theorem C7_update_frozen_list (st : St) (a o : Addr) (amt : Nat) :
    ((st.frozen a).getD 0 + amt < U128 →
      ∃ st1, update_frozen_list (.add a amt) st = .ok st1 ∧
        st1.frozen a = some ((st.frozen a).getD 0 + amt) ∧
        st1.balances = st.balances ∧
        (o ≠ a → st1.frozen o = st.frozen o)) ∧
    (U128 ≤ (st.frozen a).getD 0 + amt →
      update_frozen_list (.add a amt) st = .error .overflow) ∧
    (amt ≤ (st.frozen a).getD 0 →
      ∃ st1, update_frozen_list (.sub a amt) st = .ok st1 ∧
        st1.frozen a = some ((st.frozen a).getD 0 - amt) ∧
        st1.balances = st.balances ∧
        (o ≠ a → st1.frozen o = st.frozen o)) ∧
    ((st.frozen a).getD 0 < amt →
      update_frozen_list (.sub a amt) st = .error .overflow ∧
        Err.overflow ≠ Err.balanceFrozen) ∧
    (∃ st1, update_frozen_list (.discard a) st = .ok st1 ∧
      st1.frozen a = none ∧
      st1.balances = st.balances ∧
      (o ≠ a → st1.frozen o = st.frozen o)) := by
  refine ⟨?_, ?_, ?_, ?_, ?_⟩
  · intro h
    refine ⟨{ st with frozen := mupd st.frozen a ((st.frozen a).getD 0 + amt) },
      ?_, ?_, rfl, ?_⟩
    · simp [update_frozen_list, checkedAdd, h, bind, Except.bind]
    · simp [mupd]
    · intro ho; simp [mupd, ho]
  · intro h
    have hn : ¬ (st.frozen a).getD 0 + amt < U128 := by omega
    simp [update_frozen_list, checkedAdd, hn, bind, Except.bind]
  · intro h
    refine ⟨{ st with frozen := mupd st.frozen a ((st.frozen a).getD 0 - amt) },
      ?_, ?_, rfl, ?_⟩
    · simp [update_frozen_list, checkedSub, h, bind, Except.bind]
    · simp [mupd]
    · intro ho; simp [mupd, ho]
  · intro h
    have hn : ¬ amt ≤ (st.frozen a).getD 0 := by omega
    exact ⟨by simp [update_frozen_list, checkedSub, hn, bind, Except.bind],
      by decide⟩
  · refine ⟨{ st with frozen := mdel st.frozen a }, rfl, ?_, rfl, ?_⟩
    · simp [mdel]
    · intro ho; simp [mdel, ho]

/-- State for the C7 witness: account "a" has 5 frozen. -/
def w7St : St :=
  { balances := fun _ => none
    frozen := fun x => if x = "a" then some 5 else none
    balCap := none
    totalSupply := 0
    minter := none
    allowances := fun _ _ => none }

/-- C7 witness: subtracting 9 from a frozen amount of 5 fails with the
arithmetic error. -/
theorem C7_update_frozen_list_witness :
    update_frozen_list (.sub "a" 9) w7St = .error .overflow := by
  have h := C7_update_frozen_list w7St "a" "b" 9
  exact (h.2.2.2.1 (by decide)).1

/-- The instantiate message for C2: a total initial supply of 5 against a
mint cap of 4, so the call fails after `create_accounts` has already
written the initial balances into contract-level storage. -/
def c2msg : InstantiateMsg :=
  { name := [67, 97, 115, 104]
    symbol := [67, 65, 83, 72]
    decimals := 9
    initial_balances := [⟨"alice", 3⟩, ⟨"bob", 2⟩]
    frozen_balances := []
    bal_cap := 10
    mint := some ⟨"minter", some 4⟩ }

/-- C2: a failed invocation persists nothing. Any execute variant and any
instantiate that returns an error leaves the persisted state equal to the
state before the call; in particular the supply-over-mint-cap instantiate
writes initial balances at the contract level (balances "alice" = 3 inside
the failed call) but the persisted state keeps no balance and no balance
cap. -/
theorem C2_atomicity :
    (∀ (st : St) (sender : Addr) (msg : Execute) (e : Err),
        execute st sender msg = .error e → executeHost st sender msg = st) ∧
    (∀ (st : St) (msg : InstantiateMsg) (e : Err),
        (instantiateRaw st msg).2 = some e → persistInstantiate st msg = st) ∧
    ((instantiateRaw emptySt c2msg).2 =
        some (.generic "Initial supply greater than cap") ∧
      (instantiateRaw emptySt c2msg).1.balances "alice" = some 3 ∧
      (persistInstantiate emptySt c2msg).balances "alice" = none ∧
      (persistInstantiate emptySt c2msg).balCap = none) := by
  refine ⟨?_, ?_, rfl, rfl, rfl, rfl⟩
  · intro st sender msg e h
    simp [executeHost, h]
  · intro st msg e h
    simp only [persistInstantiate]
    split
    · next st1 heq => rw [heq] at h; simp at h
    · rfl

/-- C2 witness: a transfer from empty storage fails (not-found) and
persists nothing; the concrete failing instantiate persists nothing. -/
theorem C2_atomicity_witness :
    executeHost emptySt "s" (.transferMsg "r" 1) = emptySt ∧
      persistInstantiate emptySt c2msg = emptySt :=
  ⟨C2_atomicity.1 emptySt "s" (.transferMsg "r" 1) .notFound rfl,
    C2_atomicity.2.1 emptySt c2msg (.generic "Initial supply greater than cap")
      rfl⟩

/-- C5 counterexample: the claim says a resource_id that was never
registered fails to resolve with MissingResourceMapping — but after the
single registration set_resource_id(5, "7") on an empty store, the
never-registered id 7 resolves successfully: the reverse entry written
under the address "7" (the serialized Uint64 5, stored in the shared
namespace) is read back by the forward lookup as the string "5". -/
theorem C5_counterexample :
    resolve (set_resource_id (fun _ => none) 5 "7") 7 = .ok "5" ∧
      Except.ok "5" ≠
        (Except.error Err.missingResourceMapping : Except Err String) :=
  ⟨rfl, by simp⟩

/-- C5 (amended): after set_resource_id(r, a) the forward key holds a
(looking it up as the forward map yields the address) and the reverse key
holds r, each overwriting unconditionally whatever any prior store held at
those keys (the statement quantifies over every prior store); a lookup
fails with MissingResourceMapping exactly when the shared store holds
nothing under the id's decimal-string key — because the two maps share one
namespace, an id that was never registered can still resolve when some
registered address equals its decimal string. -/
theorem C5_set_resource_id (store : Store) (r : Nat) (a : String) :
    loadStr ((set_resource_id store r a) (toString r)) = some a ∧
    loadU64 ((set_resource_id store r a) a) = some r ∧
    (∀ (m : Store) (r2 : Nat),
      resolve m r2 = .error .missingResourceMapping ↔
        m (toString r2) = none) := by
  refine ⟨?_, ?_, ?_⟩
  · by_cases h : toString r = a
    · subst h
      simp [set_resource_id, storeSave, loadStr]
    · simp [set_resource_id, storeSave, loadStr, h]
  · simp [set_resource_id, storeSave, loadU64]
  · intro m r2
    rcases hv : m (toString r2) with _ | v
    · simp [resolve, hv, loadStr]
    · cases v <;> simp [resolve, hv, loadStr]

/-- C6 counterexample: the claim quantifies over all a1; with r1 = 1,
a1 = "2", r2 = 2, a2 = "1" (a2 is the decimal string of r1, as the claim
requires) the second registration does overwrite the forward key of r1 —
but with the serialized r2, whose decimal string equals a1, so the registry
still maps r1 to a1, contradicting the claim's "no longer maps r1 to a1". -/
theorem C6_counterexample :
    ("1" : String) = toString (1 : Nat) ∧
      loadStr
        ((set_resource_id (set_resource_id (fun _ => none) 1 "2") 2 "1")
          (toString (1 : Nat))) = some "2" :=
  ⟨by decide, by decide⟩

/-- C6 (amended): the two maps share one namespace, so for every r1, a1,
r2, a2 with a2 the decimal string of r1 and a1 not itself the decimal
string of r2, registering r2 under a2 after registering r1 under a1
overwrites the forward entry of r1 with the serialized r2 — the registry no
longer maps r1 to a1, even though only a different resource id was
registered. -/
theorem C6_alias (store : Store) (r1 r2 : Nat) (a1 a2 : String)
    (h2 : a2 = toString r1) (h1 : a1 ≠ toString r2) :
    loadStr ((set_resource_id (set_resource_id store r1 a1) r2 a2)
        (toString r1)) = some (toString r2) ∧
      some (toString r2) ≠ some a1 := by
  subst h2
  refine ⟨?_, ?_⟩
  · simp [set_resource_id, storeSave, loadStr]
  · simp only [ne_eq, Option.some.injEq]
    exact fun hh => h1 hh.symm

/-- C6 witness: registering resource id 2 under the address "1" destroys
the mapping of resource id 1 to "x". -/
theorem C6_alias_witness :
    loadStr ((set_resource_id (set_resource_id (fun _ => none) 1 "x") 2 "1")
        (toString (1 : Nat))) = some (toString (2 : Nat)) :=
  (C6_alias (fun _ => none) 1 2 "x" "1" (by decide) (by decide)).1

/-- The base ledger's transfer never reports CannotExceedCap. -/
theorem execute_transfer_ne_cap (st : St) (s r : Addr) (a : Nat) :
    execute_transfer st s r a ≠ .error .cannotExceedCap := by
  intro h
  simp only [execute_transfer, checkedSub, add128, bind] at h
  simp only [bind_ite, ok_bind, error_bind] at h
  split_ifs at h <;> simp_all

/-- The base ledger's send never reports CannotExceedCap. -/
theorem execute_send_ne_cap (st : St) (s c : Addr) (a : Nat) :
    execute_send st s c a ≠ .error .cannotExceedCap := by
  intro h
  simp only [execute_send, checkedSub, add128, bind] at h
  simp only [bind_ite, ok_bind, error_bind] at h
  split_ifs at h <;> simp_all

/-- The base ledger's transfer_from never reports CannotExceedCap. -/
theorem execute_transfer_from_ne_cap (st : St) (sp o r : Addr) (a : Nat) :
    execute_transfer_from st sp o r a ≠ .error .cannotExceedCap := by
  intro h
  simp only [execute_transfer_from, deduct_allowance, bind] at h
  rcases hA : st.allowances o sp with _ | al <;> simp only [hA] at h
  · simp only [error_bind] at h
    simp_all
  · simp only [checkedSub, add128, bind_ite, ok_bind, error_bind] at h
    split_ifs at h <;> simp_all

/-- The base ledger's send_from never reports CannotExceedCap. -/
theorem execute_send_from_ne_cap (st : St) (sp o c : Addr) (a : Nat) :
    execute_send_from st sp o c a ≠ .error .cannotExceedCap := by
  intro h
  simp only [execute_send_from, deduct_allowance, bind] at h
  rcases hA : st.allowances o sp with _ | al <;> simp only [hA] at h
  · simp only [error_bind] at h
    simp_all
  · simp only [checkedSub, add128, bind_ite, ok_bind, error_bind] at h
    split_ifs at h <;> simp_all

/-- State for the C4 counterexample: the recipient already holds
2^128 − 1 and the cap is 2^128 − 1. -/
def c4St : St :=
  { balances := fun a =>
      if a = "a" then some 5 else if a = "b" then some (U128 - 1) else none
    frozen := fun _ => none
    balCap := some (U128 - 1)
    totalSupply := 0
    minter := none
    allowances := fun _ _ => none }

/-- C4 counterexample: a transfer of 1 to a recipient holding 2^128 − 1
passes the frozen check, and the recipient balance plus the amount exceeds
the cap — but the unchecked `Uint128` addition in the guard panics before
the comparison, so the operation does not fail with CannotExceedCap as the
claim's "exactly when" requires. -/
theorem C4_counterexample :
    transfer c4St "a" "b" 1 = .error .overflowPanic ∧
      Err.overflowPanic ≠ Err.cannotExceedCap :=
  ⟨rfl, by decide⟩

/-- C4 (amended): for every Transfer and TransferFrom that passes the
frozen-balance check, provided the recipient's current balance (zero when
absent) plus the amount does not overflow u128, the operation fails with
CannotExceedCap exactly when that sum exceeds the stored balance cap (on
overflow the unchecked guard addition panics instead); Send and SendFrom
never fail with CannotExceedCap. -/
theorem C4_cap_guard :
    (∀ (st : St) (sender rcpt owner : Addr) (amount b c : Nat),
      st.balances sender = some b →
      (st.frozen sender).getD 0 ≤ b →
      amount ≤ b - (st.frozen sender).getD 0 →
      st.balCap = some c →
      (st.balances rcpt).getD 0 + amount < U128 →
      ((transfer st sender rcpt amount = .error .cannotExceedCap ↔
          c < (st.balances rcpt).getD 0 + amount) ∧
        (transfer_from st sender owner rcpt amount = .error .cannotExceedCap ↔
          c < (st.balances rcpt).getD 0 + amount))) ∧
    (∀ (st : St) (sender contract : Addr) (amount : Nat),
      send st sender contract amount ≠ .error .cannotExceedCap) ∧
    (∀ (st : St) (sender owner contract : Addr) (amount : Nat),
      send_from st sender owner contract amount ≠ .error .cannotExceedCap) := by
  refine ⟨?_, ?_, ?_⟩
  · intro st sender rcpt owner amount b c hb hfb hpass hc hno
    have hg : ¬ (b - (st.frozen sender).getD 0 < amount) := by omega
    constructor <;>
      by_cases hcap : c < (st.balances rcpt).getD 0 + amount <;>
        simp [transfer, transfer_from, load, hb, hc, sub128, add128,
          bind, Except.bind, hfb, hg, hno, hcap,
          execute_transfer_ne_cap, execute_transfer_from_ne_cap]
  · intro st sender contract amount h
    rcases hbs : st.balances sender with _ | b <;>
      simp only [send, load, hbs, sub128, bind] at h
    · simp_all [error_bind]
    · simp only [bind_ite, ok_bind, error_bind] at h
      split_ifs at h <;> simp_all [execute_send_ne_cap]
  · intro st sender owner contract amount h
    rcases hbs : st.balances sender with _ | b <;>
      simp only [send_from, load, hbs, sub128, bind] at h
    · simp_all [error_bind]
    · simp only [bind_ite, ok_bind, error_bind] at h
      split_ifs at h <;> simp_all [execute_send_from_ne_cap]

/-- State for the C4 witness: sender "a" holds 5, recipient "b" holds 9,
cap 10. -/
def w4St : St :=
  { balances := fun a =>
      if a = "a" then some 5 else if a = "b" then some 9 else none
    frozen := fun _ => none
    balCap := some 10
    totalSupply := 14
    minter := none
    allowances := fun _ _ => none }

/-- C4 witness: transferring 2 to a recipient holding 9 against a cap of 10
fails with CannotExceedCap. -/
theorem C4_cap_guard_witness :
    transfer w4St "a" "b" 2 = .error .cannotExceedCap := by
  have h := C4_cap_guard.1 w4St "a" "b" "o" 2 5 10 rfl (by decide) (by decide)
    rfl (by decide)
  exact h.1.mpr (by decide)

/-- The total of a list of initial balances. -/
def sumAmounts (l : List Cw20Coin) : Nat := (l.map Cw20Coin.amount).sum

/-- When the running total never overflows u128, the balance-saving loop of
create_accounts returns the sum of the amounts. -/
theorem saveInitialBalances_ok (l : List Cw20Coin) :
    ∀ (st : St) (acc : Nat), acc + sumAmounts l < U128 →
      (saveInitialBalances st l acc).2 = .ok (acc + sumAmounts l) := by
  induction l with
  | nil =>
    intro st acc _
    simp [saveInitialBalances, sumAmounts]
  | cons c rest ih =>
    intro st acc h
    have hsum : sumAmounts (c :: rest) = c.amount + sumAmounts rest := by
      simp [sumAmounts]
    have h1 : acc + c.amount < U128 := by rw [hsum] at h; omega
    have h2 : acc + c.amount + sumAmounts rest < U128 := by
      rw [hsum] at h; omega
    simp only [saveInitialBalances, add128, if_pos h1]
    rw [ih _ _ h2, hsum]
    congr 1
    omega

/-- A run of instantiateRaw that reports no error is an ok result of
instantiate. -/
theorem instantiate_ok_of_none (st : St) (msg : InstantiateMsg)
    (h : (instantiateRaw st msg).2 = none) :
    ∃ st1, instantiate st msg = .ok st1 := by
  rcases hr : instantiateRaw st msg with ⟨st1, o⟩
  rw [hr] at h
  simp only at h
  subst h
  exact ⟨st1, by simp [instantiate, hr]⟩

/-- The instantiate message for the C8 counterexample: two balances of
2^127, each within the balance cap 2^127, whose sum overflows u128; a mint
cap of 100 is configured and exceeded. -/
def c8msg : InstantiateMsg :=
  { name := [67, 97, 115, 104]
    symbol := [67, 65, 83, 72]
    decimals := 9
    initial_balances := [⟨"a", 2 ^ 127⟩, ⟨"b", 2 ^ 127⟩]
    frozen_balances := []
    bal_cap := 2 ^ 127
    mint := some ⟨"m", some 100⟩ }

/-- C8 counterexample: a mint cap (100) is configured and the sum of the
initial balances exceeds it, so the claim requires the generic
"Initial supply greater than cap" error — but the running total is summed
with `Uint128`'s unchecked `+=`, which panics on the overflowing sum before
the mint-cap comparison is reached. -/
theorem C8_counterexample :
    instantiate emptySt c8msg = .error .overflowPanic ∧
      Err.overflowPanic ≠ Err.generic "Initial supply greater than cap" :=
  ⟨rfl, by decide⟩

/-- C8 (amended): given that metadata validation passes, instantiate fails
with CannotExceedCap whenever some initial balance exceeds the balance cap;
when every initial balance is within the cap and the total initial supply
does not overflow u128 (on overflow the unchecked running total panics
instead), instantiate fails with the generic "Initial supply greater than
cap" error whenever a mint cap is configured and the total exceeds it, and
succeeds when no configured mint cap is exceeded. -/
theorem C8_instantiate (st : St) (msg : InstantiateMsg)
    (hv : validate msg = .ok ()) :
    ((∃ cb ∈ msg.initial_balances, msg.bal_cap < cb.amount) →
      instantiate st msg = .error .cannotExceedCap) ∧
    ((∀ cb ∈ msg.initial_balances, cb.amount ≤ msg.bal_cap) →
      sumAmounts msg.initial_balances < U128 →
      ((∀ limit, get_cap msg = some limit →
          sumAmounts msg.initial_balances ≤ limit) →
        ∃ st1, instantiate st msg = .ok st1) ∧
      (∀ limit, get_cap msg = some limit →
        limit < sumAmounts msg.initial_balances →
        instantiate st msg =
          .error (.generic "Initial supply greater than cap"))) := by
  constructor
  · rintro ⟨cb, hmem, hgt⟩
    have hany : msg.initial_balances.any
        (fun b => decide (msg.bal_cap < b.amount)) = true :=
      List.any_eq_true.mpr ⟨cb, hmem, by simpa using hgt⟩
    simp [instantiate, instantiateRaw, hv, hany]
  · intro hall hsum
    have hany : msg.initial_balances.any
        (fun b => decide (msg.bal_cap < b.amount)) = false := by
      simp only [List.any_eq_false, decide_eq_true_eq]
      intro x hx
      exact Nat.not_lt.mpr (hall x hx)
    have hok := saveInitialBalances_ok msg.initial_balances st 0 (by omega)
    rcases hsave : saveInitialBalances st msg.initial_balances 0 with ⟨stb, res⟩
    rw [hsave] at hok
    simp only [Nat.zero_add] at hok
    subst hok
    constructor
    · intro hcap
      apply instantiate_ok_of_none
      cases hgc : get_cap msg with
      | none =>
        simp [instantiateRaw, hv, hany, create_accounts, hsave, hgc]
      | some limit =>
        have hle := hcap limit hgc
        simp [instantiateRaw, hv, hany, create_accounts, hsave, hgc,
          Nat.not_lt.mpr hle]
    · intro limit hgc hlt
      simp [instantiate, instantiateRaw, hv, hany, create_accounts, hsave,
        hgc, hlt]

/-- The instantiate message for the C8 witness: supply 5 against mint cap
4. -/
def c8wmsg : InstantiateMsg :=
  { name := [67, 97, 115, 104]
    symbol := [67, 65, 83, 72]
    decimals := 9
    initial_balances := [⟨"a", 5⟩]
    frozen_balances := []
    bal_cap := 10
    mint := some ⟨"m", some 4⟩ }

/-- C8 witness: a total initial supply of 5 against a configured mint cap
of 4 fails with the generic supply-over-cap error. -/
theorem C8_instantiate_witness :
    instantiate emptySt c8wmsg =
      .error (.generic "Initial supply greater than cap") := by
  have h := C8_instantiate emptySt c8wmsg rfl
  exact (h.2 (by decide) (by decide)).2 4 rfl (by decide)

/-- A fixed-width little-endian encoding has its width as length. -/
theorem natToLE_length (k n : Nat) : (natToLE k n).length = k := by
  induction k generalizing n with
  | zero => rfl
  | succ k ih => simp [natToLE, ih]

/-- A value below the width bound round-trips through its little-endian
bytes. -/
theorem leToNat_natToLE (k n : Nat) (h : n < 2 ^ (8 * k)) :
    leToNat (natToLE k n) = n := by
  induction k generalizing n with
  | zero =>
    simp only [natToLE, leToNat]
    simp only [Nat.mul_zero, pow_zero] at h
    omega
  | succ k ih =>
    rw [Nat.mul_succ, pow_add] at h
    have h256 : (2 : Nat) ^ 8 = 256 := by norm_num
    rw [h256] at h
    have hd : n / 256 < 2 ^ (8 * k) := by omega
    simp only [natToLE, leToNat, ih _ hd]
    omega

/-- The SCALE compact encoding round-trips for every value in the range of
the compact u32 length prefix, with trailing input preserved. -/
theorem compactDec_enc (n : Nat) (rest : List Nat) (h : n < 2 ^ 32) :
    compactDec (compactEnc n ++ rest) = some (n, rest) := by
  unfold compactEnc
  split_ifs with h1 h2 h3
  · have hm : 4 * n % 4 = 0 := by omega
    have hv : 4 * n / 4 = n := by omega
    simp [compactDec, hm, hv]
  · have hb : (4 * n + 1) % 256 % 4 = 1 := by omega
    have hv : ((4 * n + 1) % 256 + 256 * ((4 * n + 1) / 256 % 256)) / 4 = n := by
      omega
    simp [natToLE, compactDec, hb, hv]
  · have hb : (4 * n + 2) % 256 % 4 = 2 := by omega
    have hv : ((4 * n + 2) % 256 + 256 * ((4 * n + 2) / 256 % 256) +
        65536 * ((4 * n + 2) / 256 / 256 % 256) +
        16777216 * ((4 * n + 2) / 256 / 256 / 256 % 256)) / 4 = n := by omega
    simp [natToLE, compactDec, hb, hv]
  · have hlen : (natToLE 4 n).length = 4 := natToLE_length 4 n
    have ht : (natToLE 4 n ++ rest).take 4 = natToLE 4 n := by
      rw [← hlen]
      exact List.take_left _ _
    have hd : (natToLE 4 n ++ rest).drop 4 = rest := by
      rw [← hlen]
      exact List.drop_left _ _
    have hle : 4 ≤ (natToLE 4 n ++ rest).length := by
      simp [hlen]
    have hval : leToNat (natToLE 4 n) = n :=
      leToNat_natToLE 4 n (by simpa using h)
    simp [compactDec, hle, ht, hd, hval, hlen]

/-- A u128 round-trips through its 16 little-endian bytes, with trailing
input preserved. -/
theorem decU128_enc (n : Nat) (rest : List Nat) (h : n < U128) :
    decU128 (encU128 n ++ rest) = some (n, rest) := by
  have hlen : (natToLE 16 n).length = 16 := natToLE_length 16 n
  have ht : (natToLE 16 n ++ rest).take 16 = natToLE 16 n := by
    rw [← hlen]
    exact List.take_left _ _
  have hd : (natToLE 16 n ++ rest).drop 16 = rest := by
    rw [← hlen]
    exact List.drop_left _ _
  have hle : 16 ≤ (natToLE 16 n ++ rest).length := by
    simp [hlen]
  have hval : leToNat (natToLE 16 n) = n :=
    leToNat_natToLE 16 n (by simpa [U128] using h)
  simp [decU128, encU128, hle, ht, hd, hval, hlen]

/-- A length-prefixed byte string round-trips, with trailing input
preserved. -/
theorem decBytes_enc (s rest : List Nat) (h : s.length < 2 ^ 32) :
    decBytes (encBytes s ++ rest) = some (s, rest) := by
  have h1 : compactDec (compactEnc s.length ++ (s ++ rest)) =
      some (s.length, s ++ rest) := compactDec_enc s.length (s ++ rest) h
  have ht : (s ++ rest).take s.length = s := List.take_left _ _
  have hd : (s ++ rest).drop s.length = rest := List.drop_left _ _
  have hle : s.length ≤ (s ++ rest).length := by simp
  simp [decBytes, encBytes, List.append_assoc, h1, ht, hd, hle, Option.bind]

/-- C9: the derived SCALE codec round-trips: decoding the canonical binary
encoding of a valid ProposalData (amount then recipient_address) or
WithdrawData (token_address then recipient_address then amount) yields the
original value with no input left over; valid means the u128 field is below
2^128 and each string's byte length is in the range of the compact u32
length prefix. -/
theorem C9_codec_roundtrip (p : ProposalData) (w : WithdrawData)
    (hp : p.amount < U128) (hpr : p.recipient_address.length < 2 ^ 32)
    (hw : w.amount < U128) (hwt : w.token_address.length < 2 ^ 32)
    (hwr : w.recipient_address.length < 2 ^ 32) :
    decodeProposal (encodeProposal p) = some (p, []) ∧
      decodeWithdraw (encodeWithdraw w) = some (w, []) := by
  constructor
  · have h1 : decU128 (encU128 p.amount ++ encBytes p.recipient_address) =
        some (p.amount, encBytes p.recipient_address) := decU128_enc _ _ hp
    have h2 : decBytes (encBytes p.recipient_address ++ []) =
        some (p.recipient_address, []) := decBytes_enc _ _ hpr
    rw [List.append_nil] at h2
    simp [decodeProposal, encodeProposal, h1, h2, Option.bind]
  · have h1 : decBytes (encBytes w.token_address ++
        (encBytes w.recipient_address ++ encU128 w.amount)) =
        some (w.token_address,
          encBytes w.recipient_address ++ encU128 w.amount) :=
      decBytes_enc _ _ hwt
    have h2 : decBytes (encBytes w.recipient_address ++ encU128 w.amount) =
        some (w.recipient_address, encU128 w.amount) := decBytes_enc _ _ hwr
    have h3 : decU128 (encU128 w.amount ++ []) = some (w.amount, []) :=
      decU128_enc _ _ hw
    rw [List.append_nil] at h3
    simp [decodeWithdraw, encodeWithdraw, h1, h2, h3, Option.bind]

/-- C9 witness: the concrete proposal (1000, "ge") and withdraw
("t", "r", 7) round-trip. -/
theorem C9_codec_roundtrip_witness :
    decodeProposal (encodeProposal ⟨1000, [103, 101]⟩) =
        some (⟨1000, [103, 101]⟩, []) ∧
      decodeWithdraw (encodeWithdraw ⟨[116], [114], 7⟩) =
        some (⟨[116], [114], 7⟩, []) :=
  C9_codec_roundtrip ⟨1000, [103, 101]⟩ ⟨[116], [114], 7⟩ (by decide)
    (by decide) (by decide) (by decide) (by decide)

end TokenContract
